import Mathlib

/-!
A shallow embedding of the provisioning script `setup.js`.

Filesystem paths are lists of components, so `path.join(a, b, c)` becomes the
list `[a, b, c]` and joining onto an existing path is list append.  External
collaborators — the probe commands, the shell commands run through
`runCommand`, the system clock (`new Date().toISOString()`), the home directory of the user, the content a successful `git clone` places on disk, and the
own `configs/*.lua` files of the repository — are supplied by an environment
`Env`.  One run of the script is a pure function from `Env` and an initial
filesystem to a trace of observable events (log-file lines, console output,
command invocations, filesystem actions) together with an outcome: normal
completion, `process.exit(code)`, or an uncaught filesystem fault
(`fs.copyFileSync` throwing).

The embedding follows `setup.js` line by line; comments cite the source
lines.  JavaScript `<` on strings is lexicographic comparison of UTF-16
code units, which on the ASCII strings involved coincides with the Lean
lexicographic `<` on `String`.
-/

namespace SetupJs

/-- A filesystem path as a list of components (`path.join` = list append). -/
abbrev Pth := List String

/-- Observable events of one run of the script. -/
inductive Event
  | fileLine (isErr : Bool) (line : String)
  | stdout (s : String)
  | stderr (s : String)
  | probe (cmd : String)
  | execI (cmd : String)
  | mkdirE (p : Pth)
  | rmdirE (p : Pth)
  | unlinkE (f : String)
  | copyE (src : Pth) (dest : Pth)
  deriving DecidableEq, Repr

/-- How a run terminates early: `process.exit(n)`, or an uncaught
filesystem fault (recorded with the path on which it was raised). -/
inductive Exit
  | code (n : Nat)
  | fault (p : Pth)
  deriving DecidableEq, Repr

/-- The external world: probe outputs (`none` = the probe threw), success of
each shell command, the `error.message` text of a failed command, whether
`nvim --version` succeeds, whether the `configs/*.lua` source files of the repo
are readable, `process.env.HOME`, `__dirname`, the tree of paths a
successful clone creates inside the target directory, and the clock. -/
structure Env where
  probeOut : String → Option String
  runOk : String → Bool
  errMsg : String → String
  nvimOk : Bool
  srcOk : Bool
  home : String
  dirname : String
  cloneTree : List Pth
  now : String

/-- Program state: the set of existing filesystem paths, and the event
trace so far. -/
structure St where
  fs : List Pth
  trace : List Event
  deriving DecidableEq, Repr

/-- Result of a script fragment: either the next state, or the final state
together with how the process terminated. -/
abbrev Res := Except (St × Exit) St

/-- The state carried by a result, whether or not the run terminated. -/
def resSt : Res → St
  | .ok s => s
  | .error (s, _) => s

/-! ### Logger (setup.js lines 7–23) -/

/-- The log-file line written by `log` (line 13): `[timestamp] message\n`. -/
def fmtInfo (t m : String) : String := "[" ++ t ++ "] " ++ m ++ "\n"

/-- The log-file line written by `logError` (line 20):
`[timestamp] ERROR: message\n`. -/
def fmtErr (t m : String) : String := "[" ++ t ++ "] ERROR: " ++ m ++ "\n"

/-- Function `log(message)` (lines 11–16): append the formatted line to the log file
and echo the raw message to stdout. -/
def log (env : Env) (s : St) (m : String) : St :=
  { s with trace := s.trace ++ [.fileLine false (fmtInfo env.now m), .stdout m] }

/-- Function `logError(message)` (lines 18–23): append the formatted line to the log
file and echo the raw message to stderr. -/
def logError (env : Env) (s : St) (m : String) : St :=
  { s with trace := s.trace ++ [.fileLine true (fmtErr env.now m), .stderr m] }

/-! ### Prerequisite gate (setup.js lines 25–50) -/

/-- One entry of the `prerequisites` array (lines 26–30). -/
structure Prereq where
  name : String
  command : String
  minVersion : String
  deriving DecidableEq, Repr

/-- The `prerequisites` array (lines 26–30). -/
def prerequisites : List Prereq :=
  [{ name := "Node.js", command := "node --version", minVersion := "v14.0.0" },
   { name := "npm", command := "npm --version", minVersion := "6.0.0" },
   { name := "Git", command := "git --version", minVersion := "2.0.0" }]

/-- Model of the version cleanup `replace` call (lines 37–38): strip one leading lowercase `v`
(and nothing else) from the front of the string. -/
def stripV (s : String) : String :=
  match s.data with
  | 'v' :: rest => ⟨rest⟩
  | _ => s

/-- The JavaScript `.trim()` method (line 34): remove leading and trailing
whitespace.  (An executable equivalent of `String.trim`: drop whitespace
characters from both ends of the character list.) -/
def trimJS (s : String) : String :=
  ⟨((s.data.dropWhile Char.isWhitespace).reverse.dropWhile Char.isWhitespace).reverse⟩

/-- The message logged when a probe throws (line 47). -/
def missingMsg (name : String) : String :=
  name ++ " is not installed. Please install it and run the script again."

/-- The message logged when the detected version is too old (line 42). -/
def outdatedMsg (p : Prereq) : String :=
  p.name ++ " version " ++ p.minVersion ++ " or higher is required. Please update "
    ++ p.name ++ " and run the script again."

/-- The informational line logged after a successful probe (line 35). -/
def versionMsg (p : Prereq) (v : String) : String := p.name ++ " version: " ++ v

/-- The body of `prerequisites.forEach` (lines 32–50) for one entry: run the
probe; if it throws, log the missing-tool error and `process.exit(1)`;
otherwise log the trimmed version, strip a leading `v` from both strings and
compare them with the plain JavaScript string `<`; exit 1 if too old. -/
def checkPrereq (env : Env) (p : Prereq) (s : St) : Res :=
  let s1 := { s with trace := s.trace ++ [.probe p.command] }
  match env.probeOut p.command with
  | none => .error (logError env s1 (missingMsg p.name), .code 1)
  | some out =>
      let version := trimJS out
      let s2 := log env s1 (versionMsg p version)
      let currentVersion := stripV version
      let requiredVersion := stripV p.minVersion
      -- JavaScript string `<`; `String.lt` is by definition lexicographic
      -- `List.lt` on the character lists.
      if currentVersion.data < requiredVersion.data then
        .error (logError env s2 (outdatedMsg p), .code 1)
      else
        .ok s2

/-- The `prerequisites.forEach` loop over a list of prerequisites; `process.exit`
inside the loop terminates everything, modelled by `Except` short-circuit. -/
def gateList (env : Env) : List Prereq → St → Res
  | [], s => .ok s
  | p :: ps, s =>
      match checkPrereq env p s with
      | .ok s2 => gateList env ps s2
      | .error e => .error e

/-- The whole prerequisite gate (lines 32–50). -/
def gate (env : Env) (s : St) : Res := gateList env prerequisites s

/-! ### Command runner (setup.js lines 52–62) -/

/-- Function `runCommand(command)` (lines 53–62): invoke the command with inherited
stdio; on success log `Command executed: <command>`; on failure log
`Error executing command: <command>`, log `error.message`, and
`process.exit(1)`. -/
def runCommand (env : Env) (command : String) (s : St) : Res :=
  let s1 := { s with trace := s.trace ++ [.execI command] }
  if env.runOk command then
    .ok (log env s1 ("Command executed: " ++ command))
  else
    .error
      (logError env (logError env s1 ("Error executing command: " ++ command))
        (env.errMsg command), .code 1)

/-! ### Filesystem primitives -/

/-- Model of `fs.existsSync` on the modelled filesystem. -/
def existsP (fs : List Pth) (p : Pth) : Bool := decide (p ∈ fs)

/-- All nonempty prefixes of a path (the directories `mkdirSync` with
`recursive: true` brings into existence). -/
def allPre (p : Pth) : List Pth :=
  (List.range p.length).map (fun n => p.take (n + 1))

/-- Model of the recursive `fs.mkdirSync` call on `p`. -/
def mkdirRec (fs : List Pth) (p : Pth) : List Pth := allPre p ++ fs

/-- Model of the recursive `fs.rmdirSync` call: drop `p` and everything below. -/
def rmRec (fs : List Pth) (p : Pth) : List Pth :=
  fs.filter (fun q => !(p.isPrefixOf q))

/-- Render a path the way `path.join` renders it in command lines. -/
def joinP (p : Pth) : String := String.intercalate "/" p

/-! ### Provisioning steps (setup.js lines 64–126) -/

/-- Editor install (lines 64–73): probe `nvim --version` with inherited
stdio; if it succeeds log "already installed", otherwise install via the
system package manager. -/
def editorStep (env : Env) (s : St) : Res :=
  let s1 := log env s "Checking if NeoVim is installed..."
  let s2 := { s1 with trace := s1.trace ++ [.execI "nvim --version"] }
  if env.nvimOk then
    .ok (log env s2 "NeoVim is already installed.")
  else
    let s3 := log env s2 "Installing NeoVim..."
    match runCommand env "sudo apt-get install neovim" s3 with
    | .ok s4 => .ok (log env s4 "NeoVim installation completed.")
    | .error e => .error e

/-- Constant `fontDir` (line 77): `path.join` of HOME with .local/share/fonts. -/
def fontDir (env : Env) : Pth := [env.home, ".local", "share", "fonts"]

/-- Constant `fontZip` (line 82). -/
def fontZip : String := "JetBrainsMono.zip"

/-- Constant `fontUrl` (line 83). -/
def fontUrl : String := "https://download.jetbrains.com/fonts/JetBrainsMono-2.242.zip"

/-- Font install (lines 75–88): ensure the font directory exists, download
the archive, extract it, delete the archive, refresh the font cache. -/
def fontStep (env : Env) (s : St) : Res :=
  let s1 := log env s "Installing JetBrains Mono Nerd Font..."
  let s2 :=
    if existsP s1.fs (fontDir env) then s1
    else { fs := mkdirRec s1.fs (fontDir env), trace := s1.trace ++ [.mkdirE (fontDir env)] }
  match runCommand env ("curl -L -o " ++ fontZip ++ " " ++ fontUrl) s2 with
  | .error e => .error e
  | .ok s3 =>
    match runCommand env ("unzip -q " ++ fontZip ++ " -d " ++ joinP (fontDir env)) s3 with
    | .error e => .error e
    | .ok s4 =>
      let s5 := { s4 with trace := s4.trace ++ [.unlinkE fontZip] }
      match runCommand env "fc-cache -f" s5 with
      | .error e => .error e
      | .ok s6 => .ok (log env s6 "JetBrains Mono Nerd Font installation completed.")

/-- Constant `nvimDir` (line 92): `path.join` of HOME with .config/nvim. -/
def nvimDir (env : Env) : Pth := [env.home, ".config", "nvim"]

/-- The clone command line (line 100). -/
def cloneCmd (env : Env) : String :=
  "git clone -b v2.0 https://github.com/NvChad/NvChad " ++ joinP (nvimDir env) ++ " --depth 1"

/-- Filesystem effect of a successful clone: the target directory (and its
parents) exist, populated with the tree of the repository. -/
def cloneFs (env : Env) (fs : List Pth) : List Pth :=
  allPre (nvimDir env) ++ env.cloneTree.map (fun q => nvimDir env ++ q) ++ fs

/-- Distribution setup (lines 90–101): if the configuration root exists,
recursively delete it; then shallow-clone the pinned branch into it. -/
def nvchadStep (env : Env) (s : St) : Res :=
  let s1 := log env s "Checking if NVChad is installed..."
  let s2 :=
    if existsP s1.fs (nvimDir env) then
      let sa := log env s1 "Removing existing NVChad installation..."
      let sb := { fs := rmRec sa.fs (nvimDir env), trace := sa.trace ++ [.rmdirE (nvimDir env)] }
      log env sb "Existing NVChad installation removed."
    else s1
  let s3 := log env s2 "Installing NVChad..."
  match runCommand env (cloneCmd env) s3 with
  | .error e => .error e
  | .ok s4 =>
      let s5 := { s4 with fs := cloneFs env s4.fs }
      .ok (log env s5 "NVChad installation completed.")

/-- Constant `customDir` (line 105): `path.join` of nvimDir with lua/custom. -/
def customDir (env : Env) : Pth := nvimDir env ++ ["lua", "custom"]

/-- The `configFiles` array (lines 110–114): source → destination pairs. -/
def configFiles (env : Env) : List (Pth × Pth) :=
  [([env.dirname, "configs", "chadrc.lua"], nvimDir env ++ ["lua", "custom", "chadrc.lua"]),
   ([env.dirname, "configs", "plugins.lua"], nvimDir env ++ ["lua", "custom", "plugins.lua"]),
   ([env.dirname, "configs", "lspconfig.lua"],
     nvimDir env ++ ["lua", "plugins", "configs", "lspconfig.lua"])]

/-- One `fs.copyFileSync(src, dest)` followed by the copy log line (lines
117–118).  The copy throws — an uncaught fault, since nothing catches it —
when the source file is unreadable or the parent directory of the
destination does not exist. -/
def copyOne (env : Env) (sp dp : Pth) (s : St) : Res :=
  let s1 := { s with trace := s.trace ++ [.copyE sp dp] }
  if env.srcOk && existsP s.fs dp.dropLast then
    .ok (log env { s1 with fs := dp :: s1.fs } ("Copied " ++ joinP sp ++ " to " ++ joinP dp))
  else
    .error (s1, .fault dp)

/-- The `configFiles.forEach` loop (lines 116–119). -/
def copyAll (env : Env) : List (Pth × Pth) → St → Res
  | [], s => .ok s
  | (sp, dp) :: rest, s =>
      match copyOne env sp dp s with
      | .ok s2 => copyAll env rest s2
      | .error e => .error e

/-- Configuration placement (lines 103–120): create the custom directory if
absent, then copy the three configuration files. -/
def configStep (env : Env) (s : St) : Res :=
  let s1 := log env s "Configuring NVChad and LSPs..."
  let s2 :=
    if existsP s1.fs (customDir env) then s1
    else { fs := mkdirRec s1.fs (customDir env), trace := s1.trace ++ [.mkdirE (customDir env)] }
  match copyAll env (configFiles env) s2 with
  | .error e => .error e
  | .ok s3 => .ok (log env s3 "NVChad and LSPs configuration completed.")

/-- Language-server install (lines 122–126): two global npm installs. -/
def lspStep (env : Env) (s : St) : Res :=
  let s1 := log env s "Installing LSPs for Python and TypeScript..."
  match runCommand env "sudo npm install -g pyright" s1 with
  | .error e => .error e
  | .ok s2 =>
    match runCommand env "sudo npm install -g typescript-language-server" s2 with
    | .error e => .error e
    | .ok s3 => .ok (log env s3 "LSPs for Python and TypeScript installed.")

/-- How the whole run ends: early termination, or falling off the end of
the script (implicit exit status 0). -/
inductive Outcome
  | exited (e : Exit)
  | completed
  deriving DecidableEq, Repr

/-- The whole script (setup.js top to bottom): prerequisite gate, then the
five provisioning steps in order, then the final success log line. -/
def script (env : Env) (fs0 : List Pth) : List Event × Outcome :=
  match gate env { fs := fs0, trace := [] } with
  | .error (s, e) => (s.trace, .exited e)
  | .ok s =>
    match editorStep env s with
    | .error (s2, e) => (s2.trace, .exited e)
    | .ok s2 =>
      match fontStep env s2 with
      | .error (s3, e) => (s3.trace, .exited e)
      | .ok s3 =>
        match nvchadStep env s3 with
        | .error (s4, e) => (s4.trace, .exited e)
        | .ok s4 =>
          match configStep env s4 with
          | .error (s5, e) => (s5.trace, .exited e)
          | .ok s5 =>
            match lspStep env s5 with
            | .error (s6, e) => (s6.trace, .exited e)
            | .ok s6 => ((log env s6 "Setup completed successfully!").trace, .completed)

/-! ### Observation helpers -/

/-- Events that belong to a Provisioning Step (any inherited-stdio command
invocation or filesystem mutation); the gate itself only probes and logs. -/
def isProv : Event → Bool
  | .execI _ => true
  | .mkdirE _ => true
  | .rmdirE _ => true
  | .unlinkE _ => true
  | .copyE _ _ => true
  | _ => false

/-- The ERROR-severity lines appended to the log file, in order. -/
def errLines (tr : List Event) : List String :=
  tr.filterMap (fun e => match e with | .fileLine true l => some l | _ => none)

/-- Is the event a recursive-delete action? -/
def isRm : Event → Bool
  | .rmdirE _ => true
  | _ => false

/-- Is the event an inherited-stdio command invocation? -/
def isEx : Event → Bool
  | .execI _ => true
  | _ => false

/-- Is the event a directory creation? -/
def isMk : Event → Bool
  | .mkdirE _ => true
  | _ => false

/-- Does `n` occur as a contiguous substring of `h` (character lists)? -/
def hasSub (n : List Char) : List Char → Bool
  | [] => n.isEmpty
  | c :: rest => n.isPrefixOf (c :: rest) || hasSub n rest

/-- Does string `n` occur inside string `h`? -/
def containsStr (n h : String) : Bool := hasSub n.toList h.toList

/-- Does this prerequisite pass under `env`: probe succeeds and the
stripped, trimmed version is not lexicographically below the minimum? -/
def passesB (env : Env) (p : Prereq) : Bool :=
  match env.probeOut p.command with
  | none => false
  | some out => !(decide ((stripV (trimJS out)).data < (stripV p.minVersion).data))

/-- The events a script fragment starting from state `s` appended. -/
def added (s : St) (r : Res) : List Event := (resSt r).trace.drop s.trace.length

/-- How a fragment terminated: `none` when it continued normally. -/
def exitOf : Res → Option Exit
  | .ok _ => none
  | .error (_, e) => some e

/-- Did the fragment continue normally? -/
def isOkR : Res → Bool
  | .ok _ => true
  | .error _ => false

/-- Is this event the package-manager install of the editor? -/
def isAptInstall : Event → Bool
  | .execI c => c == "sudo apt-get install neovim"
  | _ => false

/-- The parent directory of the third configuration destination,
`<nvimDir>/lua/plugins/configs`. -/
def lspDestParent (env : Env) : Pth := nvimDir env ++ ["lua", "plugins", "configs"]

/-- The indexed view of the three prerequisites. -/
def prereqAt (i : Fin 3) : Prereq := prerequisites.get (Fin.cast (by decide) i)

/-- The first prerequisite (Node.js). -/
def nodeSpec : Prereq := prereqAt 0

/-- The second prerequisite (npm). -/
def npmSpec : Prereq := prereqAt 1

/-- The third prerequisite (Git). -/
def gitSpec : Prereq := prereqAt 2

/-! ### Concrete worlds, used to instantiate the theorems -/

/-- A world where every shell interaction succeeds. -/
def envAllPass : Env :=
  { probeOut := fun _ => some "v99", runOk := fun _ => true, errMsg := fun _ => "E",
    nvimOk := true, srcOk := true, home := "H", dirname := "D",
    cloneTree := [["lua", "plugins", "configs"]], now := "T" }

/-- A world where every probe fails. -/
def envProbeNone : Env := { envAllPass with probeOut := fun _ => none }

/-- A world whose probes all report version 9.0.0. -/
def envNine : Env := { envAllPass with probeOut := fun _ => some "9.0.0" }

/-- A prerequisite requiring version 10.0.0, for the lexicographic pitfall. -/
def specTen : Prereq := { name := "X", command := "x --version", minVersion := "10.0.0" }

/-- A world where every shell command fails, with Node-style error text. -/
def envRunFail : Env :=
  { envAllPass with runOk := fun _ => false, errMsg := fun c => "Command failed: " ++ c }

/-- A world where Git reports 1.9.0 and everything else is fine. -/
def envGitOld : Env :=
  { envAllPass with probeOut := fun c => if c == "git --version" then some "1.9.0" else some "v99" }

/-- A world where the Git probe throws and everything else is fine. -/
def envGitMissing : Env :=
  { envAllPass with probeOut := fun c => if c == "git --version" then none else some "v99" }

/-- A world where the editor probe fails but installation succeeds. -/
def envNoNvim : Env := { envAllPass with nvimOk := false }

/-! ## Helper lemmas -/

theorem existsP_iff (fs : List Pth) (p : Pth) : existsP fs p = true ↔ p ∈ fs := by
  simp [existsP]

theorem mem_allPre_self (p : Pth) (hp : p ≠ []) : p ∈ allPre p := by
  have hl : 0 < p.length := List.length_pos.mpr hp
  refine List.mem_map.mpr ⟨p.length - 1, ?_, ?_⟩
  · simp only [List.mem_range]
    omega
  · have h1 : p.length - 1 + 1 = p.length := by omega
    rw [h1, List.take_length]

theorem length_le_of_mem_allPre {q p : Pth} (h : q ∈ allPre p) : q.length ≤ p.length := by
  rcases List.mem_map.mp h with ⟨n, _, rfl⟩
  simp [List.length_take]

theorem isPrefixOf_self_app (n rest : List Char) : n.isPrefixOf (n ++ rest) = true := by
  induction n with
  | nil => simp [List.isPrefixOf]
  | cons a as ih => simp [List.isPrefixOf, ih]

theorem hasSub_nil_left (l : List Char) : hasSub [] l = true := by
  cases l <;> simp [hasSub, List.isPrefixOf]

theorem hasSub_middle (pre n rest : List Char) : hasSub n (pre ++ (n ++ rest)) = true := by
  induction pre with
  | nil =>
      cases n with
      | nil => simpa using hasSub_nil_left rest
      | cons c cs => simp [hasSub, isPrefixOf_self_app]
  | cons a pre ih => simp [hasSub, ih]

theorem containsStr_app (a b : String) : containsStr b (a ++ b) = true := by
  have h := hasSub_middle a.data b.data []
  simpa [containsStr, String.toList, String.data_append] using h

theorem strAppend_assoc (a b c : String) : a ++ b ++ c = a ++ (b ++ c) :=
  String.ext (by simp [String.data_append, List.append_assoc])

/-! ## Claim theorems -/

/-- C1 (amended), main part: whenever the probe of a prerequisite returns
output `out`, the gate check passes iff the detected string (trimmed, with
a leading `v` stripped) is not lexicographically below the stripped
minimum — plain string comparison, not semantic versioning. -/
theorem checkPrereq_passes_iff_not_lt (env : Env) (p : Prereq) (s : St) (out : String)
    (h : env.probeOut p.command = some out) :
    isOkR (checkPrereq env p s) = true ↔
      ¬ (stripV (trimJS out)).data < (stripV p.minVersion).data := by
  by_cases hlt : (stripV (trimJS out)).data < (stripV p.minVersion).data
  · simp [checkPrereq, h, hlt, isOkR]
  · simp [checkPrereq, h, hlt, isOkR]

/-- C1 counterexample: the claim asserts that under the gate rule the
string 9.0.0 compares less than 10.0.0; in fact the lexicographic order
used by the code puts 10.0.0 below 9.0.0, so a check requiring 10.0.0
passes when 9.0.0 is detected. -/
theorem lex_compare_counterexample :
    ¬ ((stripV (trimJS "9.0.0")).data < (stripV "10.0.0").data) ∧
    ((stripV (trimJS "10.0.0")).data < (stripV "9.0.0").data) ∧
    checkPrereq envNine specTen { fs := [], trace := [] } =
      .ok { fs := [], trace := [.probe "x --version",
        .fileLine false (fmtInfo "T" (versionMsg specTen "9.0.0")),
        .stdout (versionMsg specTen "9.0.0")] } :=
  ⟨by decide, by decide, by rfl⟩

/-- Witness for C1: the amended theorem instantiated at a world whose
probe reports 9.0.0 against a minimum of 10.0.0. -/
theorem checkPrereq_passes_iff_not_lt_witness :
    isOkR (checkPrereq envNine specTen { fs := [], trace := [] }) = true ↔
      ¬ (stripV (trimJS "9.0.0")).data < (stripV "10.0.0").data :=
  checkPrereq_passes_iff_not_lt envNine specTen { fs := [], trace := [] } "9.0.0" rfl

/-- C3: the command runner logs `Command executed: <cmd>` (which contains
the command text) and continues on success; on failure it logs an error
line naming the command, logs the underlying error detail, exits with
status 1, and no continuation runs (binding anything after it is inert). -/
theorem runCommand_spec (env : Env) (cmd : String) (s : St) :
    (env.runOk cmd = true →
      runCommand env cmd s = .ok { fs := s.fs, trace := s.trace ++
        [.execI cmd, .fileLine false (fmtInfo env.now ("Command executed: " ++ cmd)),
         .stdout ("Command executed: " ++ cmd)] } ∧
      containsStr cmd ("Command executed: " ++ cmd) = true) ∧
    (env.runOk cmd = false →
      runCommand env cmd s = .error ({ fs := s.fs, trace := s.trace ++
        [.execI cmd, .fileLine true (fmtErr env.now ("Error executing command: " ++ cmd)),
         .stderr ("Error executing command: " ++ cmd),
         .fileLine true (fmtErr env.now (env.errMsg cmd)),
         .stderr (env.errMsg cmd)] }, .code 1) ∧
      containsStr cmd ("Error executing command: " ++ cmd) = true ∧
      ∀ k : St → Res, (runCommand env cmd s).bind k = runCommand env cmd s) := by
  constructor
  · intro h
    refine ⟨?_, containsStr_app "Command executed: " cmd⟩
    simp [runCommand, h, log, List.append_assoc]
  · intro h
    refine ⟨?_, containsStr_app "Error executing command: " cmd, ?_⟩
    · simp [runCommand, h, logError, List.append_assoc]
    · intro k
      simp [runCommand, h, logError, Except.bind]

/-- Witness for C3: both branches at concrete worlds. -/
theorem runCommand_spec_witness :
    (runCommand envAllPass "ls" { fs := [], trace := [] } = .ok { fs := [], trace :=
      [.execI "ls", .fileLine false (fmtInfo "T" ("Command executed: " ++ "ls")),
       .stdout ("Command executed: " ++ "ls")] } ∧
      containsStr "ls" ("Command executed: " ++ "ls") = true) ∧
    (runCommand envRunFail "ls" { fs := [], trace := [] } = .error ({ fs := [], trace :=
      [.execI "ls", .fileLine true (fmtErr "T" ("Error executing command: " ++ "ls")),
       .stderr ("Error executing command: " ++ "ls"),
       .fileLine true (fmtErr "T" (envRunFail.errMsg "ls")),
       .stderr (envRunFail.errMsg "ls")] }, .code 1) ∧
      containsStr "ls" ("Error executing command: " ++ "ls") = true) :=
  ⟨(runCommand_spec envAllPass "ls" { fs := [], trace := [] }).1 rfl,
   ⟨((runCommand_spec envRunFail "ls" { fs := [], trace := [] }).2 rfl).1,
    ((runCommand_spec envRunFail "ls" { fs := [], trace := [] }).2 rfl).2.1⟩⟩

/-- C4 counterexample: with the error detail Node actually produces
(`Command failed: <cmd>`), a failing invocation appends two
ERROR-severity log entries that reference the failing command text, not
exactly one. -/
theorem runCommand_error_entries_counterexample :
    (errLines (resSt (runCommand envRunFail "rm -rf q" { fs := [], trace := [] })).trace).countP
        (fun l => containsStr "rm -rf q" l) = 2 ∧
    exitOf (runCommand envRunFail "rm -rf q" { fs := [], trace := [] }) = some (.code 1) :=
  ⟨by rfl, by rfl⟩

/-- C4 (amended): a failing command-runner invocation appends exactly two
ERROR entries — first the fixed line naming the command, then the
underlying error detail (which may itself mention the command) — and then
exits with status 1, with nothing executing afterwards. -/
theorem runCommand_fail_spec (env : Env) (cmd : String) (s : St)
    (h : env.runOk cmd = false) :
    exitOf (runCommand env cmd s) = some (.code 1) ∧
    errLines (resSt (runCommand env cmd s)).trace = errLines s.trace ++
      [fmtErr env.now ("Error executing command: " ++ cmd), fmtErr env.now (env.errMsg cmd)] ∧
    containsStr cmd ("Error executing command: " ++ cmd) = true ∧
    ∀ k : St → Res, (runCommand env cmd s).bind k = runCommand env cmd s := by
  refine ⟨?_, ?_, containsStr_app "Error executing command: " cmd, ?_⟩
  · simp [runCommand, h, exitOf, logError]
  · simp [runCommand, h, logError, resSt, errLines, List.filterMap_append]
  · intro k
    simp [runCommand, h, logError, Except.bind]

/-- Witness for C4: the amended theorem at a failing world. -/
theorem runCommand_fail_spec_witness :
    exitOf (runCommand envRunFail "mv a b" { fs := [], trace := [] }) = some (.code 1) ∧
    errLines (resSt (runCommand envRunFail "mv a b" { fs := [], trace := [] })).trace =
      errLines ([] : List Event) ++
      [fmtErr "T" ("Error executing command: " ++ "mv a b"),
       fmtErr "T" (envRunFail.errMsg "mv a b")] :=
  ⟨(runCommand_fail_spec envRunFail "mv a b" { fs := [], trace := [] } rfl).1,
   (runCommand_fail_spec envRunFail "mv a b" { fs := [], trace := [] } rfl).2.1⟩

/-- C9: both log functions append one line to the log file carrying the
timestamp in brackets — with the `ERROR: ` severity prefix exactly on
error lines — and mirror the raw message to stdout resp. stderr; the
filesystem is untouched. -/
theorem logger_format (env : Env) (s : St) (m : String) :
    log env s m = { fs := s.fs, trace := s.trace ++
      [.fileLine false ("[" ++ env.now ++ "] " ++ m ++ "\n"), .stdout m] } ∧
    logError env s m = { fs := s.fs, trace := s.trace ++
      [.fileLine true ("[" ++ env.now ++ "] " ++ ("ERROR: " ++ m) ++ "\n"), .stderr m] } := by
  constructor
  · rfl
  · have hsplit : ("] ERROR: " : String) = "] " ++ "ERROR: " := rfl
    have hfmt : fmtErr env.now m = "[" ++ env.now ++ "] " ++ ("ERROR: " ++ m) ++ "\n" := by
      apply String.ext
      simp [fmtErr, hsplit, String.data_append, List.append_assoc]
    simp [logError, hfmt]

/-! ## Gate characterization lemmas -/

theorem checkPrereq_missing (env : Env) (p : Prereq) (s : St)
    (h : env.probeOut p.command = none) :
    checkPrereq env p s = .error ({ fs := s.fs, trace := s.trace ++
      [.probe p.command, .fileLine true (fmtErr env.now (missingMsg p.name)),
       .stderr (missingMsg p.name)] }, .code 1) := by
  simp [checkPrereq, h, logError, List.append_assoc]

theorem checkPrereq_pass (env : Env) (p : Prereq) (s : St) (out : String)
    (h : env.probeOut p.command = some out)
    (hge : ¬ (stripV (trimJS out)).data < (stripV p.minVersion).data) :
    checkPrereq env p s = .ok { fs := s.fs, trace := s.trace ++
      [.probe p.command, .fileLine false (fmtInfo env.now (versionMsg p (trimJS out))),
       .stdout (versionMsg p (trimJS out))] } := by
  simp [checkPrereq, h, log, hge, List.append_assoc]

theorem checkPrereq_outdated (env : Env) (p : Prereq) (s : St) (out : String)
    (h : env.probeOut p.command = some out)
    (hlt : (stripV (trimJS out)).data < (stripV p.minVersion).data) :
    checkPrereq env p s = .error ({ fs := s.fs, trace := s.trace ++
      [.probe p.command, .fileLine false (fmtInfo env.now (versionMsg p (trimJS out))),
       .stdout (versionMsg p (trimJS out)),
       .fileLine true (fmtErr env.now (outdatedMsg p)),
       .stderr (outdatedMsg p)] }, .code 1) := by
  simp [checkPrereq, h, log, logError, hlt, List.append_assoc]

theorem passesB_elim (env : Env) (p : Prereq) (h : passesB env p = true) :
    ∃ out, env.probeOut p.command = some out ∧
      ¬ (stripV (trimJS out)).data < (stripV p.minVersion).data := by
  unfold passesB at h
  cases hp : env.probeOut p.command with
  | none => rw [hp] at h; simp at h
  | some out =>
      rw [hp] at h
      exact ⟨out, rfl, by simpa using h⟩

theorem passesB_of_ok (env : Env) (p : Prereq) (s s2 : St)
    (h : checkPrereq env p s = .ok s2) : passesB env p = true := by
  cases hp : env.probeOut p.command with
  | none => rw [checkPrereq_missing env p s hp] at h; simp at h
  | some out =>
      by_cases hlt : (stripV (trimJS out)).data < (stripV p.minVersion).data
      · rw [checkPrereq_outdated env p s out hp hlt] at h; simp at h
      · simp [passesB, hp, hlt]

theorem gateList_facts (env : Env) (ps : List Prereq) : ∀ s : St,
    (∃ tr, (resSt (gateList env ps s)).trace = s.trace ++ tr ∧
        tr.all (fun e => !isProv e) = true) ∧
    (∀ s2 e, gateList env ps s = .error (s2, e) → e = .code 1) ∧
    (∀ s2, gateList env ps s = .ok s2 → ps.all (passesB env) = true) := by
  induction ps with
  | nil =>
      intro s
      refine ⟨⟨[], by simp [gateList, resSt], rfl⟩, ?_, ?_⟩
      · intro s2 e h
        simp [gateList] at h
      · intro s2 h
        simp
  | cons p ps ih =>
      intro s
      cases hp : env.probeOut p.command with
      | none =>
          have hg : gateList env (p :: ps) s = .error ({ fs := s.fs, trace := s.trace ++
              [.probe p.command, .fileLine true (fmtErr env.now (missingMsg p.name)),
               .stderr (missingMsg p.name)] }, .code 1) := by
            simp [gateList, checkPrereq_missing env p s hp]
          refine ⟨⟨_, by rw [hg]; rfl, by simp [isProv]⟩, ?_, ?_⟩
          · intro s2 e h
            rw [hg] at h
            simp only [Except.error.injEq, Prod.mk.injEq] at h
            exact h.2.symm
          · intro s2 h
            rw [hg] at h
            simp at h
      | some out =>
          by_cases hlt : (stripV (trimJS out)).data < (stripV p.minVersion).data
          · have hg : gateList env (p :: ps) s = .error ({ fs := s.fs, trace := s.trace ++
                [.probe p.command,
                 .fileLine false (fmtInfo env.now (versionMsg p (trimJS out))),
                 .stdout (versionMsg p (trimJS out)),
                 .fileLine true (fmtErr env.now (outdatedMsg p)),
                 .stderr (outdatedMsg p)] }, .code 1) := by
              simp [gateList, checkPrereq_outdated env p s out hp hlt]
            refine ⟨⟨_, by rw [hg]; rfl, by simp [isProv]⟩, ?_, ?_⟩
            · intro s2 e h
              rw [hg] at h
              simp only [Except.error.injEq, Prod.mk.injEq] at h
              exact h.2.symm
            · intro s2 h
              rw [hg] at h
              simp at h
          · have hg : gateList env (p :: ps) s = gateList env ps { fs := s.fs, trace := s.trace ++
                [.probe p.command,
                 .fileLine false (fmtInfo env.now (versionMsg p (trimJS out))),
                 .stdout (versionMsg p (trimJS out))] } := by
              simp [gateList, checkPrereq_pass env p s out hp hlt]
            refine ⟨?_, ?_, ?_⟩
            · rcases (ih _).1 with ⟨tr2, htr2, hall2⟩
              rw [hg]
              refine ⟨[.probe p.command,
                 .fileLine false (fmtInfo env.now (versionMsg p (trimJS out))),
                 .stdout (versionMsg p (trimJS out))] ++ tr2, ?_, ?_⟩
              · rw [htr2]
                simp [List.append_assoc]
              · simp only [List.all_append, hall2, Bool.and_true]
                simp [isProv]
            · intro s2 e h
              rw [hg] at h
              exact (ih _).2.1 s2 e h
            · intro s2 h
              rw [hg] at h
              have hrest := (ih _).2.2 s2 h
              simp [List.all_cons, hrest, passesB, hp, hlt]

/-- C2: if the prerequisite gate fails, the whole script terminates right
there with exit status 1 and the trace contains no Provisioning-Step
event; and whenever the gate lets the script continue, all three
prerequisites passed. -/
theorem gate_fail_no_provisioning (env : Env) (fs0 : List Pth) :
    (∀ s e, gate env { fs := fs0, trace := [] } = .error (s, e) →
      script env fs0 = (s.trace, .exited e) ∧ e = .code 1 ∧
      s.trace.all (fun ev => !isProv ev) = true) ∧
    (∀ s, gate env { fs := fs0, trace := [] } = .ok s →
      prerequisites.all (passesB env) = true) := by
  have hf := gateList_facts env prerequisites { fs := fs0, trace := [] }
  constructor
  · intro s e h
    refine ⟨?_, hf.2.1 s e h, ?_⟩
    · unfold script
      rw [h]
    · have hs : resSt (gateList env prerequisites { fs := fs0, trace := [] }) = s := by
        have hgg : gateList env prerequisites { fs := fs0, trace := [] } = .error (s, e) := h
        rw [hgg]
        rfl
      rcases hf.1 with ⟨tr, htr, hall⟩
      rw [hs] at htr
      simp only [List.nil_append] at htr
      rw [htr]
      exact hall
  · intro s h
    exact hf.2.2 s h

/-- Witness for C2: a world with no Node.js stops at the gate with exit
status 1 and a provisioning-free trace; a world where every probe reports
v99 passes all three prerequisites. -/
theorem gate_fail_no_provisioning_witness :
    (script envProbeNone [] =
      ([.probe "node --version", .fileLine true (fmtErr "T" (missingMsg "Node.js")),
        .stderr (missingMsg "Node.js")], .exited (.code 1)) ∧
      Exit.code 1 = .code 1 ∧
      ([.probe "node --version", .fileLine true (fmtErr "T" (missingMsg "Node.js")),
        .stderr (missingMsg "Node.js")] : List Event).all (fun ev => !isProv ev) = true) ∧
    prerequisites.all (passesB envAllPass) = true :=
  ⟨(gate_fail_no_provisioning envProbeNone []).1
      { fs := [], trace := [.probe "node --version",
        .fileLine true (fmtErr "T" (missingMsg "Node.js")), .stderr (missingMsg "Node.js")] }
      (.code 1) rfl,
   (gate_fail_no_provisioning envAllPass []).2
      { fs := [], trace :=
        [.probe "node --version", .fileLine false (fmtInfo "T" (versionMsg nodeSpec "v99")),
         .stdout (versionMsg nodeSpec "v99"),
         .probe "npm --version", .fileLine false (fmtInfo "T" (versionMsg npmSpec "v99")),
         .stdout (versionMsg npmSpec "v99"),
         .probe "git --version", .fileLine false (fmtInfo "T" (versionMsg gitSpec "v99")),
         .stdout (versionMsg gitSpec "v99")] } rfl⟩

/-- C5: for each of the three prerequisites, if every earlier prerequisite
passes and the probe of this one throws, the whole run exits with status 1,
the log carries exactly one ERROR entry — the missing-tool message naming
that tool — and no Provisioning-Step event occurs. -/
theorem prereq_missing_exact_error (env : Env) (fs0 : List Pth) :
    (env.probeOut nodeSpec.command = none →
      (script env fs0).2 = .exited (.code 1) ∧
      errLines (script env fs0).1 = [fmtErr env.now (missingMsg nodeSpec.name)] ∧
      ((script env fs0).1.all fun ev => !isProv ev) = true) ∧
    (passesB env nodeSpec = true → env.probeOut npmSpec.command = none →
      (script env fs0).2 = .exited (.code 1) ∧
      errLines (script env fs0).1 = [fmtErr env.now (missingMsg npmSpec.name)] ∧
      ((script env fs0).1.all fun ev => !isProv ev) = true) ∧
    (passesB env nodeSpec = true → passesB env npmSpec = true →
      env.probeOut gitSpec.command = none →
      (script env fs0).2 = .exited (.code 1) ∧
      errLines (script env fs0).1 = [fmtErr env.now (missingMsg gitSpec.name)] ∧
      ((script env fs0).1.all fun ev => !isProv ev) = true) := by
  refine ⟨?_, ?_, ?_⟩
  · intro hm
    have hg : gate env { fs := fs0, trace := [] } = .error ({ fs := fs0, trace := [] ++
        [.probe nodeSpec.command, .fileLine true (fmtErr env.now (missingMsg nodeSpec.name)),
         .stderr (missingMsg nodeSpec.name)] }, .code 1) := by
      have h0 := checkPrereq_missing env nodeSpec { fs := fs0, trace := [] } hm
      simp only [gate, prerequisites, gateList]
      rw [show ({ name := "Node.js", command := "node --version", minVersion := "v14.0.0" } :
        Prereq) = nodeSpec from rfl, h0]
    have hs : script env fs0 = ([] ++
        [.probe nodeSpec.command, .fileLine true (fmtErr env.now (missingMsg nodeSpec.name)),
         .stderr (missingMsg nodeSpec.name)], .exited (.code 1)) := by
      unfold script
      rw [hg]
    rw [hs]
    refine ⟨rfl, ?_, ?_⟩
    · simp [errLines]
    · simp [isProv]
  · intro hp0 hm
    obtain ⟨out0, ho0, hge0⟩ := passesB_elim env nodeSpec hp0
    have hg : gate env { fs := fs0, trace := [] } = .error ({ fs := fs0, trace :=
        [.probe nodeSpec.command,
         .fileLine false (fmtInfo env.now (versionMsg nodeSpec (trimJS out0))),
         .stdout (versionMsg nodeSpec (trimJS out0)),
         .probe npmSpec.command, .fileLine true (fmtErr env.now (missingMsg npmSpec.name)),
         .stderr (missingMsg npmSpec.name)] }, .code 1) := by
      have h0 := checkPrereq_pass env nodeSpec { fs := fs0, trace := [] } out0 ho0 hge0
      have h1 := checkPrereq_missing env npmSpec { fs := fs0, trace :=
        [.probe nodeSpec.command,
         .fileLine false (fmtInfo env.now (versionMsg nodeSpec (trimJS out0))),
         .stdout (versionMsg nodeSpec (trimJS out0))] } hm
      simp only [gate, prerequisites, gateList]
      rw [show ({ name := "Node.js", command := "node --version", minVersion := "v14.0.0" } :
        Prereq) = nodeSpec from rfl, h0]
      dsimp only [List.nil_append]
      rw [show ({ name := "npm", command := "npm --version", minVersion := "6.0.0" } :
        Prereq) = npmSpec from rfl, h1]
      simp [List.append_assoc]
    have hs : script env fs0 = (
        [.probe nodeSpec.command,
         .fileLine false (fmtInfo env.now (versionMsg nodeSpec (trimJS out0))),
         .stdout (versionMsg nodeSpec (trimJS out0)),
         .probe npmSpec.command, .fileLine true (fmtErr env.now (missingMsg npmSpec.name)),
         .stderr (missingMsg npmSpec.name)], .exited (.code 1)) := by
      unfold script
      rw [hg]
    rw [hs]
    refine ⟨rfl, ?_, ?_⟩
    · simp [errLines]
    · simp [isProv]
  · intro hp0 hp1 hm
    obtain ⟨out0, ho0, hge0⟩ := passesB_elim env nodeSpec hp0
    obtain ⟨out1, ho1, hge1⟩ := passesB_elim env npmSpec hp1
    have hg : gate env { fs := fs0, trace := [] } = .error ({ fs := fs0, trace :=
        [.probe nodeSpec.command,
         .fileLine false (fmtInfo env.now (versionMsg nodeSpec (trimJS out0))),
         .stdout (versionMsg nodeSpec (trimJS out0)),
         .probe npmSpec.command,
         .fileLine false (fmtInfo env.now (versionMsg npmSpec (trimJS out1))),
         .stdout (versionMsg npmSpec (trimJS out1)),
         .probe gitSpec.command, .fileLine true (fmtErr env.now (missingMsg gitSpec.name)),
         .stderr (missingMsg gitSpec.name)] }, .code 1) := by
      have h0 := checkPrereq_pass env nodeSpec { fs := fs0, trace := [] } out0 ho0 hge0
      have h1 := checkPrereq_pass env npmSpec { fs := fs0, trace :=
        [.probe nodeSpec.command,
         .fileLine false (fmtInfo env.now (versionMsg nodeSpec (trimJS out0))),
         .stdout (versionMsg nodeSpec (trimJS out0))] } out1 ho1 hge1
      have h2 := checkPrereq_missing env gitSpec { fs := fs0, trace :=
        [.probe nodeSpec.command,
         .fileLine false (fmtInfo env.now (versionMsg nodeSpec (trimJS out0))),
         .stdout (versionMsg nodeSpec (trimJS out0)),
         .probe npmSpec.command,
         .fileLine false (fmtInfo env.now (versionMsg npmSpec (trimJS out1))),
         .stdout (versionMsg npmSpec (trimJS out1))] } hm
      simp only [gate, prerequisites, gateList]
      rw [show ({ name := "Node.js", command := "node --version", minVersion := "v14.0.0" } :
        Prereq) = nodeSpec from rfl, h0]
      dsimp only [List.nil_append]
      rw [show ({ name := "npm", command := "npm --version", minVersion := "6.0.0" } :
        Prereq) = npmSpec from rfl, h1]
      dsimp only [List.cons_append, List.nil_append]
      rw [show ({ name := "Git", command := "git --version", minVersion := "2.0.0" } :
        Prereq) = gitSpec from rfl, h2]
      simp [List.append_assoc]
    have hs : script env fs0 = (
        [.probe nodeSpec.command,
         .fileLine false (fmtInfo env.now (versionMsg nodeSpec (trimJS out0))),
         .stdout (versionMsg nodeSpec (trimJS out0)),
         .probe npmSpec.command,
         .fileLine false (fmtInfo env.now (versionMsg npmSpec (trimJS out1))),
         .stdout (versionMsg npmSpec (trimJS out1)),
         .probe gitSpec.command, .fileLine true (fmtErr env.now (missingMsg gitSpec.name)),
         .stderr (missingMsg gitSpec.name)], .exited (.code 1)) := by
      unfold script
      rw [hg]
    rw [hs]
    refine ⟨rfl, ?_, ?_⟩
    · simp [errLines]
    · simp [isProv]

/-- Witness for C5: Git is the missing tool while Node.js and npm pass. -/
theorem prereq_missing_exact_error_witness :
    (script envGitMissing []).2 = .exited (.code 1) ∧
    errLines (script envGitMissing []).1 = [fmtErr "T" (missingMsg "Git")] ∧
    ((script envGitMissing []).1.all fun ev => !isProv ev) = true :=
  (prereq_missing_exact_error envGitMissing []).2.2 (by decide) (by decide) rfl

/-- C8 counterexample: with Git reporting 1.9.0 against minimum 2.0.0 the
check fails — yet the informational `Git version: 1.9.0` line is logged
(before the error), contradicting the claim that the detected version is
logged only when the check passes. -/
theorem gate_order_counterexample :
    checkPrereq envGitOld gitSpec { fs := [], trace := [] } =
      .error ({ fs := [], trace := [.probe "git --version",
        .fileLine false (fmtInfo "T" "Git version: 1.9.0"),
        .stdout "Git version: 1.9.0",
        .fileLine true (fmtErr "T" (outdatedMsg gitSpec)),
        .stderr (outdatedMsg gitSpec)] }, .code 1) ∧
    Event.fileLine false (fmtInfo "T" "Git version: 1.9.0") ∈
      [Event.probe "git --version", .fileLine false (fmtInfo "T" "Git version: 1.9.0"),
       .stdout "Git version: 1.9.0", .fileLine true (fmtErr "T" (outdatedMsg gitSpec)),
       .stderr (outdatedMsg gitSpec)] :=
  ⟨by rfl, by simp⟩

/-- C8 (amended): after a successful probe the gate always logs the
detected version first; then, if the detected version is lexicographically
below the minimum, it logs the outdated-tool error naming the tool and
required version and exits with status 1; otherwise it proceeds with no
error logged. -/
theorem checkPrereq_order_spec (env : Env) (p : Prereq) (s : St) (out : String)
    (h : env.probeOut p.command = some out) :
    ((stripV (trimJS out)).data < (stripV p.minVersion).data →
      checkPrereq env p s = .error ({ fs := s.fs, trace := s.trace ++
        [.probe p.command,
         .fileLine false (fmtInfo env.now (versionMsg p (trimJS out))),
         .stdout (versionMsg p (trimJS out)),
         .fileLine true (fmtErr env.now (outdatedMsg p)),
         .stderr (outdatedMsg p)] }, .code 1)) ∧
    (¬ (stripV (trimJS out)).data < (stripV p.minVersion).data →
      checkPrereq env p s = .ok { fs := s.fs, trace := s.trace ++
        [.probe p.command,
         .fileLine false (fmtInfo env.now (versionMsg p (trimJS out))),
         .stdout (versionMsg p (trimJS out))] }) :=
  ⟨fun hlt => checkPrereq_outdated env p s out h hlt,
   fun hge => checkPrereq_pass env p s out h hge⟩

/-- Witness for C8: both branches, at outdated Git and at passing Node. -/
theorem checkPrereq_order_spec_witness :
    checkPrereq envGitOld gitSpec { fs := [], trace := [] } =
      .error ({ fs := [], trace := [.probe "git --version",
        .fileLine false (fmtInfo "T" (versionMsg gitSpec "1.9.0")),
        .stdout (versionMsg gitSpec "1.9.0"),
        .fileLine true (fmtErr "T" (outdatedMsg gitSpec)),
        .stderr (outdatedMsg gitSpec)] }, .code 1) ∧
    checkPrereq envAllPass nodeSpec { fs := [], trace := [] } =
      .ok { fs := [], trace := [.probe "node --version",
        .fileLine false (fmtInfo "T" (versionMsg nodeSpec "v99")),
        .stdout (versionMsg nodeSpec "v99")] } :=
  ⟨(checkPrereq_order_spec envGitOld gitSpec { fs := [], trace := [] } "1.9.0" rfl).1
      (by decide),
   (checkPrereq_order_spec envAllPass nodeSpec { fs := [], trace := [] } "v99" rfl).2
      (by decide)⟩

/-- C6: among the delete and command events of the distribution-setup step there
is exactly one recursive delete of the configuration root — present exactly
when that root already existed, and placed before the single clone
invocation — and exactly one clone command (the pinned shallow clone),
never a merge and never a skip. -/
theorem nvchadStep_delete_then_clone (env : Env) (s : St) :
    (existsP s.fs (nvimDir env) = true →
      ((added s (nvchadStep env s)).filter fun e => isRm e || isEx e)
        = [.rmdirE (nvimDir env), .execI (cloneCmd env)]) ∧
    (existsP s.fs (nvimDir env) = false →
      ((added s (nvchadStep env s)).filter fun e => isRm e || isEx e)
        = [.execI (cloneCmd env)]) := by
  constructor
  · intro h
    by_cases hr : env.runOk (cloneCmd env)
    · simp [nvchadStep, added, h, hr, log, logError, runCommand, resSt,
        List.drop_left, isRm, isEx, List.append_assoc]
    · simp [nvchadStep, added, h, hr, log, logError, runCommand, resSt,
        List.drop_left, isRm, isEx, List.append_assoc]
  · intro h
    by_cases hr : env.runOk (cloneCmd env)
    · simp [nvchadStep, added, h, hr, log, logError, runCommand, resSt,
        List.drop_left, isRm, isEx, List.append_assoc]
    · simp [nvchadStep, added, h, hr, log, logError, runCommand, resSt,
        List.drop_left, isRm, isEx, List.append_assoc]

/-- Witness for C6: with the configuration root present the step deletes
then clones; with it absent it clones without deleting. -/
theorem nvchadStep_delete_then_clone_witness :
    ((added { fs := [["H", ".config", "nvim"]], trace := [] }
        (nvchadStep envAllPass { fs := [["H", ".config", "nvim"]], trace := [] })).filter
        fun e => isRm e || isEx e)
      = [.rmdirE (nvimDir envAllPass), .execI (cloneCmd envAllPass)] ∧
    ((added { fs := [], trace := [] }
        (nvchadStep envAllPass { fs := [], trace := [] })).filter
        fun e => isRm e || isEx e) = [.execI (cloneCmd envAllPass)] :=
  ⟨(nvchadStep_delete_then_clone envAllPass { fs := [["H", ".config", "nvim"]], trace := [] }).1
      rfl,
   (nvchadStep_delete_then_clone envAllPass { fs := [], trace := [] }).2 rfl⟩

/-- C7: when the editor probe succeeds the step logs that it is already
installed and performs zero package-manager installs; only when the probe
fails does it invoke the package manager (exactly once). -/
theorem editorStep_skip_if_present (env : Env) (s : St) :
    (env.nvimOk = true →
      editorStep env s = .ok { fs := s.fs, trace := s.trace ++
        [.fileLine false (fmtInfo env.now "Checking if NeoVim is installed..."),
         .stdout "Checking if NeoVim is installed...",
         .execI "nvim --version",
         .fileLine false (fmtInfo env.now "NeoVim is already installed."),
         .stdout "NeoVim is already installed."] } ∧
      ((added s (editorStep env s)).filter isAptInstall) = []) ∧
    (env.nvimOk = false →
      ((added s (editorStep env s)).filter isAptInstall)
        = [.execI "sudo apt-get install neovim"]) := by
  constructor
  · intro h
    constructor
    · simp [editorStep, h, log, List.append_assoc]
    · simp [editorStep, h, log, added, resSt, List.drop_left, isAptInstall,
        List.append_assoc]
  · intro h
    by_cases hr : env.runOk "sudo apt-get install neovim"
    · simp [editorStep, h, hr, log, logError, runCommand, added, resSt,
        List.drop_left, isAptInstall, List.append_assoc]
    · simp [editorStep, h, hr, log, logError, runCommand, added, resSt,
        List.drop_left, isAptInstall, List.append_assoc]

/-- Witness for C7: with the editor present, the exact skip trace and zero
installs; with it absent, exactly one install invocation. -/
theorem editorStep_skip_if_present_witness :
    (editorStep envAllPass { fs := [], trace := [] } = .ok { fs := [], trace :=
      [.fileLine false (fmtInfo "T" "Checking if NeoVim is installed..."),
       .stdout "Checking if NeoVim is installed...",
       .execI "nvim --version",
       .fileLine false (fmtInfo "T" "NeoVim is already installed."),
       .stdout "NeoVim is already installed."] } ∧
      ((added { fs := [], trace := [] }
          (editorStep envAllPass { fs := [], trace := [] })).filter isAptInstall) = []) ∧
    ((added { fs := [], trace := [] }
        (editorStep envNoNvim { fs := [], trace := [] })).filter isAptInstall)
      = [.execI "sudo apt-get install neovim"] :=
  ⟨(editorStep_skip_if_present envAllPass { fs := [], trace := [] }).1 rfl,
   (editorStep_skip_if_present envNoNvim { fs := [], trace := [] }).2 rfl⟩

/-! ## Filesystem lemmas for the configuration-placement step -/

theorem existsP_mkdirRec_self (fs : List Pth) (p : Pth) (hp : p ≠ []) :
    existsP (mkdirRec fs p) p = true := by
  rw [existsP_iff, mkdirRec]
  exact List.mem_append_left _ (mem_allPre_self p hp)

theorem existsP_cons (a : Pth) (fs : List Pth) (p : Pth) :
    existsP (a :: fs) p = (decide (p = a) || existsP fs p) := by
  simp [existsP, List.mem_cons]

theorem existsP_mkdir_custom (env : Env) (fs : List Pth) :
    existsP (mkdirRec fs [env.home, ".config", "nvim", "lua", "custom"])
      [env.home, ".config", "nvim", "lua", "plugins", "configs"]
      = existsP fs [env.home, ".config", "nvim", "lua", "plugins", "configs"] := by
  have hq : ([env.home, ".config", "nvim", "lua", "plugins", "configs"] : Pth) ∉
      allPre [env.home, ".config", "nvim", "lua", "custom"] := by
    intro hm
    have hle := length_le_of_mem_allPre hm
    simp at hle
  simp [existsP, mkdirRec, List.mem_append, hq]

/-- C10: the configuration-placement step creates at most the custom
subdirectory (every directory-creation event it emits is the recursive
creation of `lua/custom`); the third copy destination lies outside that
subdirectory, so when `lua/plugins/configs` is already present in the
filesystem the step completes, and when it is absent the third copy
throws an uncaught fault naming the third destination. -/
theorem configStep_custom_only_third_copy (env : Env) (s : St) (hsrc : env.srcOk = true) :
    ((added s (configStep env s)).all fun e => !isMk e || e == .mkdirE (customDir env)) = true ∧
    (existsP s.fs (lspDestParent env) = true → exitOf (configStep env s) = none) ∧
    (existsP s.fs (lspDestParent env) = false →
      exitOf (configStep env s) = some (.fault (nvimDir env ++
        ["lua", "plugins", "configs", "lspconfig.lua"]))) := by
  by_cases hc : existsP s.fs (customDir env) <;>
    by_cases hd : existsP s.fs (lspDestParent env) <;>
    simp only [customDir, lspDestParent, nvimDir, List.cons_append,
      List.nil_append] at hc hd
  · refine ⟨?_, fun _ => ?_, fun hdf => ?_⟩
    · simp [configStep, copyAll, configFiles, copyOne, log, added, resSt, exitOf,
        hsrc, hc, hd, customDir, lspDestParent, nvimDir,
        existsP_cons, List.drop_left, isMk, List.append_assoc]
    · simp [configStep, copyAll, configFiles, copyOne, log, added, resSt, exitOf,
        hsrc, hc, hd, customDir, lspDestParent, nvimDir,
        existsP_cons, List.append_assoc]
    · simp only [lspDestParent, nvimDir, List.cons_append, List.nil_append] at hdf
      simp [hd] at hdf
  · refine ⟨?_, fun hdt => ?_, fun _ => ?_⟩
    · simp [configStep, copyAll, configFiles, copyOne, log, added, resSt, exitOf,
        hsrc, hc, hd, customDir, lspDestParent, nvimDir,
        existsP_cons, List.drop_left, isMk, List.append_assoc]
    · simp only [lspDestParent, nvimDir, List.cons_append, List.nil_append] at hdt
      simp [hd] at hdt
    · simp [configStep, copyAll, configFiles, copyOne, log, added, resSt, exitOf,
        hsrc, hc, hd, customDir, lspDestParent, nvimDir,
        existsP_cons, List.append_assoc]
  · refine ⟨?_, fun _ => ?_, fun hdf => ?_⟩
    · simp [configStep, copyAll, configFiles, copyOne, log, added, resSt, exitOf,
        hsrc, hc, hd, customDir, lspDestParent, nvimDir,
        existsP_cons, existsP_mkdirRec_self, existsP_mkdir_custom,
        List.drop_left, isMk, List.append_assoc]
    · simp [configStep, copyAll, configFiles, copyOne, log, added, resSt, exitOf,
        hsrc, hc, hd, customDir, lspDestParent, nvimDir,
        existsP_cons, existsP_mkdirRec_self, existsP_mkdir_custom,
        List.append_assoc]
    · simp only [lspDestParent, nvimDir, List.cons_append, List.nil_append] at hdf
      simp [hd] at hdf
  · refine ⟨?_, fun hdt => ?_, fun _ => ?_⟩
    · simp [configStep, copyAll, configFiles, copyOne, log, added, resSt, exitOf,
        hsrc, hc, hd, customDir, lspDestParent, nvimDir,
        existsP_cons, existsP_mkdirRec_self, existsP_mkdir_custom,
        List.drop_left, isMk, List.append_assoc]
    · simp only [lspDestParent, nvimDir, List.cons_append, List.nil_append] at hdt
      simp [hd] at hdt
    · simp [configStep, copyAll, configFiles, copyOne, log, added, resSt, exitOf,
        hsrc, hc, hd, customDir, lspDestParent, nvimDir,
        existsP_cons, existsP_mkdirRec_self, existsP_mkdir_custom,
        List.append_assoc]

/-- Witness for C10: with a fresh clone containing `lua/plugins/configs`
the step completes; without it the third copy faults, and in both worlds
every directory created is the custom directory. -/
theorem configStep_custom_only_third_copy_witness :
    ((added { fs := [["H", ".config", "nvim", "lua", "plugins", "configs"]], trace := [] }
        (configStep envAllPass
          { fs := [["H", ".config", "nvim", "lua", "plugins", "configs"]], trace := [] })).all
      fun e => !isMk e || e == .mkdirE (customDir envAllPass)) = true ∧
    exitOf (configStep envAllPass
      { fs := [["H", ".config", "nvim", "lua", "plugins", "configs"]], trace := [] }) = none ∧
    exitOf (configStep envAllPass { fs := [], trace := [] }) =
      some (.fault (nvimDir envAllPass ++ ["lua", "plugins", "configs", "lspconfig.lua"])) :=
  ⟨(configStep_custom_only_third_copy envAllPass
      { fs := [["H", ".config", "nvim", "lua", "plugins", "configs"]], trace := [] } rfl).1,
   (configStep_custom_only_third_copy envAllPass
      { fs := [["H", ".config", "nvim", "lua", "plugins", "configs"]], trace := [] } rfl).2.1
      rfl,
   (configStep_custom_only_third_copy envAllPass { fs := [], trace := [] } rfl).2.2 rfl⟩

end SetupJs
